import Mathlib

/-!
Verification of the contest cache and refresh engine of the SST-Lounge-Bot
repository (src/core/database.py and src/features/contests/contests.py),
as a shallow embedding in Lean.

Modelling conventions:
* SQL TEXT timestamp columns hold ISO-8601 strings in one fixed format, whose
  lexicographic order coincides with chronological order; we model these
  columns, and all datetime values, as integer instants (`Int`).
* The CPython builtin `hash` on `str` is salted per process (PYTHONHASHSEED),
  so the hash function in effect during one run of the bot is an arbitrary
  function `String → Int`; it is passed as an explicit parameter `h` wherever
  the source calls `hash(...)`.
* `aiosqlite` tables are modelled as lists of row structures (contest_cache)
  or as lookup functions (guild_settings, keyed by guild id).
* Python optional parameters are `Option` values.  Python truthiness tests on
  them (`if platform:`, `if limit:`) are modelled faithfully: `None`, the
  empty string and the integer 0 are all falsy.
-/

set_option maxHeartbeats 1000000

namespace SSTLounge

/-- Typed failure kinds raised by `ContestAPI.fetch_upcoming_contests` and
`ContestAPI.fetch_todays_contests` in src/features/contests/contests.py:
the strings API_UNAUTHORIZED (status 401), API_RATE_LIMITED (status 429) and
API_ERROR_status (any other unsuccessful status). -/
inductive ApiError where
  | unauthorized
  | rateLimited
  | httpError (status : Nat)
deriving DecidableEq

/-- Outcome of inspecting one HTTP response status inside the fetch
functions: status 200 proceeds to JSON processing, anything else raises a
typed error. -/
inductive FetchStep where
  | ok
  | err (e : ApiError)
deriving DecidableEq

/-- Branch structure of the response handling that appears verbatim in both
`fetch_upcoming_contests` (contests.py lines 118-134) and
`fetch_todays_contests` (lines 275-291): `response.status == 200` succeeds,
401 raises API_UNAUTHORIZED, 429 raises API_RATE_LIMITED, and every other
status raises API_ERROR_status. -/
def classifyResponse (status : Nat) : FetchStep :=
  if status = 200 then .ok
  else if status = 401 then .err .unauthorized
  else if status = 429 then .err .rateLimited
  else .err (.httpError status)

/-- Embedding of `_get_platform_name_from_key` (database.py lines 245-253;
the same table also appears as `platform_names` in `_process_contests`,
contests.py lines 143-148): a `dict.get` with the raw key as default. -/
def platformNameFromKey (k : String) : String :=
  if k = "codeforces.com" then "Codeforces"
  else if k = "codechef.com" then "CodeChef"
  else if k = "atcoder.jp" then "AtCoder"
  else if k = "leetcode.com" then "LeetCode"
  else k

/-- Python str.lower restricted to the ASCII range, as a kernel-computable
map over the character list (the platform names handled by the bot are
ASCII). -/
def strLower (s : String) : String := String.mk (s.data.map Char.toLower)

/-- Embedding of `_get_platform_key_from_name` (database.py lines 272-280):
a `dict.get` whose default is `platform_name.lower()`, so an unrecognized
display name is passed through lowercased. -/
def platformKeyFromName (n : String) : String :=
  if n = "Codeforces" then "codeforces.com"
  else if n = "CodeChef" then "codechef.com"
  else if n = "AtCoder" then "atcoder.jp"
  else if n = "LeetCode" then "leetcode.com"
  else strLower n

/-- Embedding of `_format_duration` (contests.py lines 185-200), identical to
`_format_duration_from_seconds` (database.py lines 255-270).  Python `//` and
`%` are floor division and floor modulus, hence `Int.fdiv` and `Int.fmod`;
Python truthiness of an integer is the nonzero test. -/
def formatDuration (seconds : Int) : String :=
  if seconds = 0 then "Unknown"
  else
    let hours := Int.fdiv seconds 3600
    let minutes := Int.fdiv (Int.fmod seconds 3600) 60
    if hours ≠ 0 ∧ minutes ≠ 0 then toString hours ++ "h " ++ toString minutes ++ "m"
    else if hours ≠ 0 then toString hours ++ "h"
    else if minutes ≠ 0 then toString minutes ++ "m"
    else "< 1m"

/-- One raw record from the source API as consumed by `_process_contests`
(contests.py lines 140-183).  A key whose access can fail, or whose value may
fail to parse, is an `Option`: a missing or unparseable `start`, or a missing
`resource` or `event` key, raises inside the per-record try block, and the
record is skipped.  `duration` and `href` are read with `.get` defaults 0 and
the empty string, so they are total. -/
structure RawContest where
  start : Option Int
  resource : Option String
  event : Option String
  duration : Int
  href : String
deriving DecidableEq

/-- Derivation of the contest id in `_process_contests` (contests.py line
168): the Python f-string resource_hash(event), with `h` the per-run string
hash function. -/
def contestIdOf (h : String → Int) (resource event : String) : String :=
  resource ++ "_" ++ toString (h event)

/-- The dict produced per record by `_process_contests` (contests.py lines
167-178).  Display instants equal the underlying absolute instant (the IST
conversion only changes rendering); the `platform_emoji` field, a pure table
lookup to a Unicode emoji, is omitted because no claim mentions it. -/
structure ProcessedContest where
  id : String
  name : String
  platform : String
  startTime : Int
  endTime : Int
  duration : String
  durationSeconds : Int
  url : String
  platformKey : String
deriving DecidableEq

/-- Per-record body of `_process_contests`: the record is processed exactly
when its `start` parses and its `resource` and `event` keys exist; any
failure is caught, logged and the record skipped (`none`). -/
def processContest (h : String → Int) (c : RawContest) : Option ProcessedContest :=
  match c.start, c.resource, c.event with
  | some s, some res, some ev =>
      some { id := contestIdOf h res ev
           , name := ev
           , platform := platformNameFromKey res
           , startTime := s
           , endTime := s + c.duration
           , duration := formatDuration c.duration
           , durationSeconds := c.duration
           , url := c.href
           , platformKey := res }
  | _, _, _ => none

/-- Embedding of `_process_contests` (contests.py lines 140-183): the loop
with a per-record try/except-continue is a `filterMap`. -/
def processContests (h : String → Int) (raw : List RawContest) : List ProcessedContest :=
  raw.filterMap (processContest h)

/-- Embedding of the comparison core of `_get_contest_status` (contests.py
lines 212-236) after the stored start string has been parsed back to an
instant; `end_dt = start_dt + timedelta(seconds=duration_seconds)`.  The
except branch returning "unknown" is unreachable in the instants model
because parsing cannot fail there. -/
def contestStatus (now startTime durationSeconds : Int) : String :=
  if now < startTime then "upcoming"
  else if now > startTime + durationSeconds then "ended"
  else "running"

/-- One row of the `contest_cache` table (database.py lines 47-59).  The
`created_at` column, never read anywhere, is omitted. -/
structure CacheRow where
  id : String
  name : String
  platform : String
  startTime : Int
  endTime : Int
  duration : Int
  url : String
  updatedAt : Int
deriving DecidableEq

/-- SQLite INSERT OR REPLACE into a table whose primary key is `id`: a
conflicting existing row is deleted and the new row inserted. -/
def insertOrReplace (r : CacheRow) (store : List CacheRow) : List CacheRow :=
  (store.filter fun x => decide (x.id ≠ r.id)) ++ [r]

/-- Derivation of the contest id in `fetch_and_cache_contests` (database.py
line 349): platform display name lowercased, joined to the per-run string
hash of the contest name. -/
def fetchContestId (h : String → Int) (platform name : String) : String :=
  platform.toLower ++ "_" ++ toString (h name)

/-- The row inserted per contest by `fetch_and_cache_contests` (database.py
lines 346-391).  The formatted start string round-trips to the same instant
(strftime then strptime of one fixed format), `end_dt = start_dt +
timedelta(seconds=duration_seconds)`, and `updated_at = CURRENT_TIMESTAMP`
is the refresh instant `now`. -/
def fetchCacheRow (h : String → Int) (now : Int) (c : ProcessedContest) : CacheRow :=
  { id := fetchContestId h c.platform c.name
  , name := c.name
  , platform := c.platform
  , startTime := c.startTime
  , endTime := c.startTime + c.durationSeconds
  , duration := c.durationSeconds
  , url := c.url
  , updatedAt := now }

/-- Embedding of `SimpleDB.fetch_and_cache_contests` (database.py lines
329-405).  The fetch from the API is the `fetchResult` argument; the whole
body sits in a try/except returning 0, so a fetch failure executes no SQL at
all and leaves the store untouched; an empty fetch returns 0 before the
DELETE; otherwise the old cache is cleared and each contest inserted with
INSERT OR REPLACE, counting the rows cached. -/
def fetch_and_cache_contests (h : String → Int) (now : Int)
    (fetchResult : Except ApiError (List ProcessedContest))
    (store : List CacheRow) : List CacheRow × Nat :=
  match fetchResult with
  | .error _ => (store, 0)
  | .ok [] => (store, 0)
  | .ok (c :: cs) =>
      ((c :: cs).foldl (fun acc p => insertOrReplace (fetchCacheRow h now p) acc) [],
       (c :: cs).length)

/-- Canonical contest dict passed to `cache_contests` (database.py lines
163-186), carrying the columns of the cache table. -/
structure Contest where
  id : String
  name : String
  platform : String
  startTime : Int
  endTime : Int
  duration : Int
  url : String
deriving DecidableEq

/-- The row written per contest by `cache_contests`, with `updated_at =
CURRENT_TIMESTAMP` equal to the write instant `now`. -/
def contestRow (now : Int) (c : Contest) : CacheRow :=
  { id := c.id, name := c.name, platform := c.platform, startTime := c.startTime
  , endTime := c.endTime, duration := c.duration, url := c.url, updatedAt := now }

/-- Embedding of `SimpleDB.cache_contests` (database.py lines 163-186), the
`replaceAll` of the spec: DELETE all rows, then INSERT OR REPLACE each given
contest. -/
def cache_contests (now : Int) (contests : List Contest)
    (_store : List CacheRow) : List CacheRow :=
  contests.foldl (fun acc c => insertOrReplace (contestRow now c) acc) []

/-- Embedding of `SimpleDB.get_cache_age` (database.py lines 308-318):
SELECT MAX(updated_at) over the cache table, `none` on an empty table. -/
def get_cache_age : List CacheRow → Option Int
  | [] => none
  | r :: rs =>
    match get_cache_age rs with
    | none => some r.updatedAt
    | some a => some (max r.updatedAt a)

/-- Embedding of `SimpleDB.is_cache_stale` (database.py lines 320-327): true
when no cache age exists, else when `now` minus the cache age exceeds
`max_age_hours * 3600` seconds. -/
def is_cache_stale (now maxAgeHours : Int) (store : List CacheRow) : Bool :=
  match get_cache_age store with
  | none => true
  | some a => decide (now - a > maxAgeHours * 3600)

/-- Orders cache rows by the `start_time` column, as ORDER BY start_time. -/
abbrev rowLE (a b : CacheRow) : Prop := a.startTime ≤ b.startTime

instance : IsTotal CacheRow rowLE := ⟨fun a b => Int.le_total a.startTime b.startTime⟩

instance : IsTrans CacheRow rowLE := ⟨fun _ _ _ hab hbc => le_trans hab hbc⟩

/-- Platform condition of `get_cached_contests` (database.py lines 199-203):
the SQL clause `platform = ?` is added only when the Python value is truthy
(not None and not the empty string), with the key first converted to its
display name. -/
def platformFilter (platform : Option String) (r : CacheRow) : Bool :=
  match platform with
  | none => true
  | some p => if p = "" then true else decide (r.platform = platformNameFromKey p)

/-- Start date condition of `get_cached_contests` (database.py lines
205-207): `start_time >= ?` when the value is given. -/
def startDateFilter (startDate : Option Int) (r : CacheRow) : Bool :=
  match startDate with
  | none => true
  | some d => decide (d ≤ r.startTime)

/-- End date condition of `get_cached_contests` (database.py lines 209-211):
`start_time <= ?` when the value is given. -/
def endDateFilter (endDate : Option Int) (r : CacheRow) : Bool :=
  match endDate with
  | none => true
  | some d => decide (r.startTime ≤ d)

/-- LIMIT clause of `get_cached_contests` (database.py lines 215-217): Python
`if limit:` is false for None and for 0, so a limit of 0 adds no LIMIT
clause at all. -/
def applyLimit (limit : Option Nat) (rows : List CacheRow) : List CacheRow :=
  match limit with
  | none => rows
  | some n => if n = 0 then rows else rows.take n

/-- Embedding of `SimpleDB.get_cached_contests` (database.py lines 188-243):
SELECT with the ANDed optional conditions, ORDER BY start_time, optional
LIMIT.  The per-row dict conversion only reformats fields for display and is
not modelled; the function returns the selected rows. -/
def get_cached_contests (store : List CacheRow) (platform : Option String)
    (limit : Option Nat) (startDate endDate : Option Int) : List CacheRow :=
  applyLimit limit
    (List.insertionSort rowLE
      (store.filter fun r =>
        platformFilter platform r && startDateFilter startDate r && endDateFilter endDate r))

/-- One row of the `guild_settings` table (database.py lines 36-44) minus the
key column.  Column defaults: announcement_time TEXT DEFAULT 09:00,
last_announcement DATE (default NULL), updated_at TIMESTAMP DEFAULT
CURRENT_TIMESTAMP. -/
structure GuildSettingsRow where
  contestChannelId : Option Int
  announcementTime : String
  lastAnnouncement : Option String
  updatedAt : Int
deriving DecidableEq

/-- The `guild_settings` table, keyed by guild id. -/
def GuildTable := Int → Option GuildSettingsRow

/-- Embedding of `SimpleDB.set_contest_channel` (database.py lines 88-96):
INSERT OR REPLACE INTO guild_settings (guild_id, contest_channel_id) VALUES
(?, ?).  SQLite REPLACE deletes any existing row for the key and inserts a
fresh row in which every unspecified column takes its declared default. -/
def set_contest_channel (guildId channelId now : Int) (t : GuildTable) : GuildTable :=
  fun g =>
    if g = guildId then
      some { contestChannelId := some channelId
           , announcementTime := "09:00"
           , lastAnnouncement := none
           , updatedAt := now }
    else t g

/-- Number of DELETE-plus-INSERT store write sequences executed by one call
of `fetch_and_cache_contests` on the given fetch outcome: the write sequence
runs exactly when the fetch succeeded with a nonempty batch. -/
def storeWriteCount : Except ApiError (List ProcessedContest) → Nat
  | .ok (_ :: _) => 1
  | _ => 0

/-- Total store writes of a pair of refresh triggers in which the second
fires while the first is still in flight.  The command handler
`refresh_contests` (contests.py lines 906-952) and the periodic task body
`refresh_contest_cache` (lines 331-339) both call
`fetch_and_cache_contests` unconditionally; the cog holds no in-flight flag
(its only fields are bot, api and platform_map), so each trigger writes or
not depending only on its own fetch outcome. -/
def overlappingRefreshWriteCount (r1 r2 : Except ApiError (List ProcessedContest)) : Nat :=
  storeWriteCount r1 + storeWriteCount r2

/-- Concrete cache row used by witnesses and counterexamples. -/
def cfRow : CacheRow :=
  { id := "codeforces.com_1", name := "Round 1", platform := "Codeforces"
  , startTime := 100, endTime := 7300, duration := 7200, url := "u", updatedAt := 50 }

/-- Raw record with a negative source duration. -/
def negDurationRaw : RawContest :=
  { start := some 0, resource := some "codeforces.com", event := some "Bad Round"
  , duration := -60, href := "" }

/-- Raw record that processes successfully. -/
def goodRaw : RawContest :=
  { start := some 0, resource := some "codeforces.com", event := some "Round 1"
  , duration := 7200, href := "u1" }

/-- Raw record whose start is missing or unparseable, hence skipped. -/
def missingStartRaw : RawContest :=
  { start := none, resource := some "codeforces.com", event := some "Broken"
  , duration := 3600, href := "" }

/-- Second fetch of the same event as `goodRaw`: same resource and event,
different start, duration and link. -/
def goodRawLater : RawContest :=
  { start := some 50, resource := some "codeforces.com", event := some "Round 1"
  , duration := 3600, href := "u2" }

/-- Concrete processed contest used by the overlapping-refresh model. -/
def sampleProcessed : ProcessedContest :=
  { id := "codeforces.com_0", name := "Round 1", platform := "Codeforces"
  , startTime := 100, endTime := 7300, duration := "2h", durationSeconds := 7200
  , url := "u", platformKey := "codeforces.com" }

/-- Concrete canonical contest used by witnesses. -/
def sampleContest : Contest :=
  { id := "codeforces.com_1", name := "Round 1", platform := "Codeforces"
  , startTime := 100, endTime := 7300, duration := 7200, url := "u" }

/-- Pre-existing guild settings row with a customized announcement time and a
recorded last announcement date. -/
def priorRow : GuildSettingsRow :=
  { contestChannelId := some 5, announcementTime := "21:30"
  , lastAnnouncement := some "2025-01-01", updatedAt := 7 }

/-- Guild table holding `priorRow` for guild 1. -/
def table0 : GuildTable := fun g => if g = 1 then some priorRow else none

/-- Two cache rows that share an id (two upserts of the same event within one
run). -/
def rowA : CacheRow :=
  { id := "codeforces.com_0", name := "Round 1", platform := "Codeforces"
  , startTime := 0, endTime := 7200, duration := 7200, url := "u1", updatedAt := 10 }

/-- Second row with the same id as `rowA`. -/
def rowB : CacheRow :=
  { id := "codeforces.com_0", name := "Round 1", platform := "Codeforces"
  , startTime := 50, endTime := 3650, duration := 3600, url := "u2", updatedAt := 20 }

/-- Cache age of a store is none exactly on the empty store. -/
theorem get_cache_age_eq_none (store : List CacheRow) :
    get_cache_age store = none ↔ store = [] := by
  cases store with
  | nil => simp [get_cache_age]
  | cons r rs =>
    simp only [get_cache_age]
    cases get_cache_age rs <;> simp

/-- Unfolding equation of `get_cache_age` on a nonempty table. -/
theorem get_cache_age_cons (r : CacheRow) (rs : List CacheRow) :
    get_cache_age (r :: rs) =
      match get_cache_age rs with
      | none => some r.updatedAt
      | some a => some (max r.updatedAt a) := rfl

/-- On a nonempty store the cache age is the maximum of the updated_at
column. -/
theorem get_cache_age_max : ∀ (store : List CacheRow), store ≠ [] →
    ∃ a, get_cache_age store = some a
      ∧ a ∈ store.map (fun r => r.updatedAt)
      ∧ ∀ b ∈ store.map (fun r => r.updatedAt), b ≤ a
  | [], hne => absurd rfl hne
  | [r], _ => ⟨r.updatedAt, by simp [get_cache_age], by simp, by simp⟩
  | r :: r2 :: rs, _ => by
    obtain ⟨a, ha, hmem, hbd⟩ := get_cache_age_max (r2 :: rs) (by simp)
    refine ⟨max r.updatedAt a, ?_, ?_, ?_⟩
    · rw [get_cache_age_cons, ha]
    · rcases max_choice r.updatedAt a with hm | hm <;> rw [hm]
      · simp
      · simp only [List.map_cons, List.mem_cons]
        right
        simpa using hmem
    · intro b hb
      simp only [List.map_cons, List.mem_cons] at hb
      rcases hb with hb | hb
      · rw [hb]
        exact le_max_left _ _
      · exact le_trans (hbd b (by simpa using hb)) (le_max_right _ _)

/-- Every row left by the insert loop of `cache_contests` carries the write
instant in the updated_at column. -/
theorem foldl_insertOrReplace_updatedAt (now : Int) (X : List Contest) :
    ∀ (acc : List CacheRow), (∀ r ∈ acc, r.updatedAt = now) →
      ∀ r ∈ X.foldl (fun a c => insertOrReplace (contestRow now c) a) acc,
        r.updatedAt = now := by
  induction X with
  | nil => exact fun acc hacc r hr => hacc r hr
  | cons c X ih =>
    intro acc hacc r hr
    simp only [List.foldl_cons] at hr
    refine ih _ ?_ r hr
    intro x hx
    simp only [insertOrReplace, List.mem_append, List.mem_filter,
      List.mem_singleton] at hx
    rcases hx with ⟨hx, _⟩ | hx
    · exact hacc x hx
    · rw [hx]
      rfl

/-- The insert loop of `cache_contests` leaves a nonempty table when given a
nonempty batch. -/
theorem foldl_insertOrReplace_ne_nil (now : Int) :
    ∀ (X : List Contest) (acc : List CacheRow), X ≠ [] →
      X.foldl (fun a c => insertOrReplace (contestRow now c) a) acc ≠ [] := by
  intro X
  induction X with
  | nil => exact fun acc h => absurd rfl h
  | cons c X ih =>
    intro acc _
    simp only [List.foldl_cons]
    by_cases hX : X = []
    · subst hX
      simp [insertOrReplace]
    · exact ih _ hX

/-- Immediately after `cache_contests` writes a nonempty batch at instant
`now`, the cache age is exactly `now`. -/
theorem cache_age_after_replace (now : Int) (X : List Contest) (old : List CacheRow)
    (hX : X ≠ []) : get_cache_age (cache_contests now X old) = some now := by
  have hne : cache_contests now X old ≠ [] :=
    foldl_insertOrReplace_ne_nil now X [] hX
  have hupd : ∀ r ∈ cache_contests now X old, r.updatedAt = now :=
    foldl_insertOrReplace_updatedAt now X [] (by simp)
  obtain ⟨a, ha, hmem, _⟩ := get_cache_age_max _ hne
  have haeq : a = now := by
    simp only [List.mem_map] at hmem
    obtain ⟨r, hr, hra⟩ := hmem
    rw [← hra]
    exact hupd r hr
  rw [ha, haeq]

/-- C1: a fetch failure (any Source Client error, for instance HTTP 401 made
into API_UNAUTHORIZED) makes `fetch_and_cache_contests` report 0 and leave
the contest store exactly as it was: the whole body is inside a try/except
that returns 0, and no SQL executes before the fetch, so the store is
unchanged and any query over it returns identical results before and after
the failed refresh. -/
theorem fetch_failure_preserves_store (h : String → Int) (now : Int) (e : ApiError)
    (store : List CacheRow) (platform : Option String) (limit : Option Nat)
    (startDate endDate : Option Int) :
    fetch_and_cache_contests h now (.error e) store = (store, 0)
    ∧ get_cached_contests (fetch_and_cache_contests h now (.error e) store).1
        platform limit startDate endDate
      = get_cached_contests store platform limit startDate endDate :=
  ⟨rfl, rfl⟩

/-- C6: every non-2xx response status is classified into exactly the three
typed failures of the source: API_UNAUTHORIZED for 401, API_RATE_LIMITED for
429, API_ERROR_status for any other non-2xx status, and never a success. -/
theorem classify_non2xx (s : Nat) (hs : ¬ (200 ≤ s ∧ s ≤ 299)) :
    classifyResponse s =
      FetchStep.err
        (if s = 401 then .unauthorized else if s = 429 then .rateLimited
         else .httpError s)
    ∧ classifyResponse s ≠ FetchStep.ok := by
  have h200 : ¬ s = 200 := by omega
  by_cases h401 : s = 401
  · subst h401
    exact ⟨by simp [classifyResponse], by simp [classifyResponse]⟩
  · by_cases h429 : s = 429
    · subst h429
      exact ⟨by simp [classifyResponse], by simp [classifyResponse]⟩
    · exact ⟨by simp [classifyResponse, h200, h401, h429],
             by simp [classifyResponse, h200, h401, h429]⟩

/-- Witness for C6 at the statuses 401, 429 and 503. -/
theorem classify_non2xx_witness :
    classifyResponse 401 = FetchStep.err .unauthorized
    ∧ classifyResponse 429 = FetchStep.err .rateLimited
    ∧ classifyResponse 503 = FetchStep.err (.httpError 503) := by
  refine ⟨?_, ?_, ?_⟩
  · have hx := classify_non2xx 401 (by omega)
    simpa using hx.1
  · have hx := classify_non2xx 429 (by omega)
    simpa using hx.1
  · have hx := classify_non2xx 503 (by omega)
    simpa using hx.1

/-- C2 fails on the code: with two overlapping triggers whose fetches both
succeed with one contest, the second trigger does perform a store write and
two replaceAll sequences execute, because `refresh_contests` consults no
in-flight state before calling `fetch_and_cache_contests`. -/
theorem overlapping_refresh_counterexample :
    ¬ (storeWriteCount (Except.ok [sampleProcessed]) = 0
       ∨ overlappingRefreshWriteCount (Except.ok [sampleProcessed])
           (Except.ok [sampleProcessed]) ≤ 1) := by
  decide

/-- C2 amended: there is no single-flight guard.  A trigger whose fetch
succeeds with a nonempty batch always executes its own DELETE-plus-INSERT
store write and caches a positive number of rows, whatever any concurrently
in-flight refresh is doing, so an overlapping pair of triggers performs one
write more than the first trigger alone. -/
theorem second_trigger_always_writes (r1 : Except ApiError (List ProcessedContest))
    (h : String → Int) (now : Int) (c : ProcessedContest) (cs : List ProcessedContest)
    (store : List CacheRow) :
    storeWriteCount (Except.ok (c :: cs)) = 1
    ∧ overlappingRefreshWriteCount r1 (Except.ok (c :: cs)) = storeWriteCount r1 + 1
    ∧ 0 < (fetch_and_cache_contests h now (Except.ok (c :: cs)) store).2 := by
  refine ⟨rfl, rfl, ?_⟩
  simp [fetch_and_cache_contests]

/-- C8 fails on the code for a negative duration: with start 10, duration
-10 (so end 0) and now 5, the code returns "upcoming" although now is
greater than the end instant, so "ended exactly when now is past end_time"
is violated. -/
theorem contestStatus_negative_duration_counterexample :
    ¬ (contestStatus 5 10 (-10) = "ended" ↔ (5 : Int) > 10 + (-10)) := by
  decide

/-- C8 amended: for a non-negative duration (end_time at or after
start_time, as the data model guarantees), the status is total over
upcoming, running and ended, equals "upcoming" exactly when now is before
start, "ended" exactly when now is past end, and "running" otherwise. -/
theorem contestStatus_spec (now startTime durationSeconds : Int)
    (hdur : 0 ≤ durationSeconds) :
    contestStatus now startTime durationSeconds ∈ (["upcoming", "running", "ended"] : List String)
    ∧ (contestStatus now startTime durationSeconds = "upcoming" ↔ now < startTime)
    ∧ (contestStatus now startTime durationSeconds = "ended" ↔
        now > startTime + durationSeconds)
    ∧ (contestStatus now startTime durationSeconds = "running" ↔
        startTime ≤ now ∧ now ≤ startTime + durationSeconds) := by
  unfold contestStatus
  by_cases h1 : now < startTime
  · rw [if_pos h1]
    exact ⟨by decide, iff_of_true rfl h1,
           iff_of_false (by decide) (by omega),
           iff_of_false (by decide) (by omega)⟩
  · rw [if_neg h1]
    by_cases h2 : now > startTime + durationSeconds
    · rw [if_pos h2]
      exact ⟨by decide, iff_of_false (by decide) h1,
             iff_of_true rfl h2,
             iff_of_false (by decide) (by omega)⟩
    · rw [if_neg h2]
      exact ⟨by decide, iff_of_false (by decide) h1,
             iff_of_false (by decide) h2,
             iff_of_true rfl (by omega)⟩

/-- Witness for C8 on concrete instants: now 0, start 10, duration 100. -/
theorem contestStatus_spec_witness :
    contestStatus 0 10 100 = "upcoming"
    ∧ (contestStatus 0 10 100 = "upcoming" ↔ (0 : Int) < 10) := by
  have hx := contestStatus_spec 0 10 100 (by omega)
  exact ⟨hx.2.1.mpr (by omega), hx.2.1⟩

/-- C10: `set_contest_channel` replaces the whole guild_settings row via
INSERT OR REPLACE naming only guild_id and contest_channel_id, so for a
guild that already has a row the announcement time resets to the column
default 09:00 and the last announcement date resets to NULL, while rows of
other guilds are untouched. -/
theorem set_contest_channel_spec (t : GuildTable) (g c now : Int)
    (prior : GuildSettingsRow) (_hprior : t g = some prior) :
    (set_contest_channel g c now t) g
      = some { contestChannelId := some c, announcementTime := "09:00"
             , lastAnnouncement := none, updatedAt := now }
    ∧ ∀ g2, g2 ≠ g → (set_contest_channel g c now t) g2 = t g2 := by
  constructor
  · simp [set_contest_channel]
  · intro g2 hne
    simp [set_contest_channel, hne]

/-- C7 fails on the code across process runs: the id is built from the
CPython per-process-salted string hash, so two runs whose salted hash
functions differ on the event name derive different ids for the same
(platform, event) pair.  The claim, read over all pairs of runs, asserts the
two ids below are equal; they are not. -/
theorem contest_id_cross_run_counterexample :
    ¬ (contestIdOf (fun _ => 0) "codeforces.com" "Round 1"
       = contestIdOf (fun _ => 1) "codeforces.com" "Round 1") := by
  decide

/-- C7 amended: within a single process run (one fixed hash function), the
id derived by `_process_contests` is a deterministic function of the
resource and event fields: two fetched raw records agreeing on resource and
event always process to records with identical ids, whatever their other
fields, and upserting the second row over the first replaces it rather than
inserting a duplicate.  Across process runs the id is not stable, because
the CPython string hash is salted per process. -/
theorem contest_id_stable_within_run (h : String → Int) (c1 c2 : RawContest)
    (p1 p2 : ProcessedContest)
    (hres : c1.resource = c2.resource) (hev : c1.event = c2.event)
    (h1 : processContest h c1 = some p1) (h2 : processContest h c2 = some p2) :
    p1.id = p2.id
    ∧ ∀ (row1 row2 : CacheRow) (s : List CacheRow), row1.id = row2.id →
        insertOrReplace row2 (insertOrReplace row1 s) = insertOrReplace row2 s := by
  constructor
  · rcases c1 with ⟨st1, res1, ev1, d1, u1⟩
    rcases c2 with ⟨st2, res2, ev2, d2, u2⟩
    simp only at hres hev
    subst hres hev
    cases st1 <;> cases res1 <;> cases ev1 <;>
      simp [processContest] at h1
    cases st2 <;> simp [processContest] at h2
    rw [← h1, ← h2]
  · intro row1 row2 s hid
    simp only [insertOrReplace, List.filter_append, List.append_assoc,
      List.filter_filter]
    rw [List.filter_cons, if_neg (by simp [hid]), List.filter_nil, hid]
    simp

/-- Witness for C7: the two fetches `goodRaw` and `goodRawLater` of the same
event in the same run give rows with the same id, and the second upsert of
`rowB` over `rowA` leaves a single row. -/
theorem contest_id_stable_within_run_witness :
    (processContests (fun _ => 0) [goodRaw]).map (fun p => p.id)
      = (processContests (fun _ => 0) [goodRawLater]).map (fun p => p.id)
    ∧ insertOrReplace rowB (insertOrReplace rowA []) = insertOrReplace rowB [] := by
  have hx := contest_id_stable_within_run (fun _ => 0) goodRaw goodRawLater
    { id := "codeforces.com_0", name := "Round 1", platform := "Codeforces"
    , startTime := 0, endTime := 7200, duration := "2h", durationSeconds := 7200
    , url := "u1", platformKey := "codeforces.com" }
    { id := "codeforces.com_0", name := "Round 1", platform := "Codeforces"
    , startTime := 50, endTime := 3650, duration := "1h", durationSeconds := 3600
    , url := "u2", platformKey := "codeforces.com" }
    (by decide) (by decide) (by decide) (by decide)
  exact ⟨by simp [processContests, goodRaw, goodRawLater, processContest,
                  contestIdOf, platformNameFromKey],
         hx.2 rowA rowB [] (by decide)⟩

/-- C9 fails on the code for unrecognized display names: the name-to-key
mapping passes an unknown name through lowercased, not unchanged, so
TopCoder maps to topcoder. -/
theorem platform_passthrough_counterexample :
    platformKeyFromName "TopCoder" = "topcoder"
    ∧ ¬ (platformKeyFromName "TopCoder" = "TopCoder") := by
  decide

/-- C9 amended: each of the four known platform keys round-trips through
key-to-name then name-to-key, each of the four display names round-trips the
other way, an unrecognized key passes through the key-to-name mapping
unchanged, and an unrecognized display name passes through the name-to-key
mapping lowercased (hence unchanged exactly when already lowercase); neither
mapping can fail. -/
theorem platform_mapping_spec (k n : String) :
    (platformKeyFromName (platformNameFromKey "codeforces.com") = "codeforces.com"
     ∧ platformKeyFromName (platformNameFromKey "codechef.com") = "codechef.com"
     ∧ platformKeyFromName (platformNameFromKey "atcoder.jp") = "atcoder.jp"
     ∧ platformKeyFromName (platformNameFromKey "leetcode.com") = "leetcode.com")
    ∧ (platformNameFromKey (platformKeyFromName "Codeforces") = "Codeforces"
     ∧ platformNameFromKey (platformKeyFromName "CodeChef") = "CodeChef"
     ∧ platformNameFromKey (platformKeyFromName "AtCoder") = "AtCoder"
     ∧ platformNameFromKey (platformKeyFromName "LeetCode") = "LeetCode")
    ∧ (k ≠ "codeforces.com" → k ≠ "codechef.com" → k ≠ "atcoder.jp" →
        k ≠ "leetcode.com" → platformNameFromKey k = k)
    ∧ (n ≠ "Codeforces" → n ≠ "CodeChef" → n ≠ "AtCoder" → n ≠ "LeetCode" →
        platformKeyFromName n = strLower n) := by
  refine ⟨by decide, by decide, ?_, ?_⟩
  · intro h1 h2 h3 h4
    simp [platformNameFromKey, h1, h2, h3, h4]
  · intro h1 h2 h3 h4
    simp [platformKeyFromName, h1, h2, h3, h4]

/-- Witness for C9 on the unrecognized key example.org and the unrecognized
display name TopCoder. -/
theorem platform_mapping_spec_witness :
    platformNameFromKey "example.org" = "example.org"
    ∧ platformKeyFromName "TopCoder" = strLower "TopCoder" := by
  have hx := platform_mapping_spec "example.org" "TopCoder"
  exact ⟨hx.2.2.1 (by decide) (by decide) (by decide) (by decide),
         hx.2.2.2 (by decide) (by decide) (by decide) (by decide)⟩

/-- Witness for C10: guild 1 has the customized row `priorRow`; after
setting channel 42 at instant 99 its row is fully reset and guild 2 is
untouched. -/
theorem set_contest_channel_spec_witness :
    table0 1 = some priorRow
    ∧ (set_contest_channel 1 42 99 table0) 1
      = some { contestChannelId := some 42, announcementTime := "09:00"
             , lastAnnouncement := none, updatedAt := 99 }
    ∧ (set_contest_channel 1 42 99 table0) 2 = table0 2 := by
  have hx := set_contest_channel_spec table0 1 42 99 priorRow (by simp [table0])
  exact ⟨by simp [table0], hx.1, hx.2 2 (by decide)⟩

/-- C3 fails on the code in one corner: a successful replaceAll of an empty
batch clears the store, so immediately afterwards the cache is stale even
with max_age 1 hour, against the claim that staleness is false immediately
after any successful replaceAll. -/
theorem stale_after_empty_replaceAll_counterexample :
    ¬ (is_cache_stale 0 1 (cache_contests 0 [] []) = false) := by
  decide

/-- C3 amended: `is_cache_stale` is true on the empty store; on a nonempty
store it is true exactly when now minus the most recent updated_at (the
cache age) exceeds max_age_hours in seconds; and it is false immediately
after a successful replaceAll of a nonempty batch for any max_age above
zero. -/
theorem is_cache_stale_spec (now maxAgeHours : Int) (store : List CacheRow)
    (contests : List Contest) (old : List CacheRow) :
    (store = [] → is_cache_stale now maxAgeHours store = true)
    ∧ (store ≠ [] → ∃ a, get_cache_age store = some a
        ∧ a ∈ store.map (fun r => r.updatedAt)
        ∧ (∀ b ∈ store.map (fun r => r.updatedAt), b ≤ a)
        ∧ (is_cache_stale now maxAgeHours store = true ↔ now - a > maxAgeHours * 3600))
    ∧ (0 < maxAgeHours → contests ≠ [] →
        is_cache_stale now maxAgeHours (cache_contests now contests old) = false) := by
  refine ⟨?_, ?_, ?_⟩
  · intro h
    subst h
    rfl
  · intro hne
    obtain ⟨a, ha, hmem, hbd⟩ := get_cache_age_max store hne
    refine ⟨a, ha, hmem, hbd, ?_⟩
    simp [is_cache_stale, ha]
  · intro hpos hXne
    have hca := cache_age_after_replace now contests old hXne
    simp only [is_cache_stale, hca]
    simp only [decide_eq_false_iff_not, not_lt, gt_iff_lt]
    omega

/-- Witness for C3: the empty store is stale; the cache age of the singleton
store is the updated_at of its row and drives staleness; after replacing
with one contest at instant 100 the cache is fresh for max_age 6 hours. -/
theorem is_cache_stale_spec_witness :
    is_cache_stale 100 6 ([] : List CacheRow) = true
    ∧ (∃ a, get_cache_age [cfRow] = some a
        ∧ a ∈ [cfRow].map (fun r => r.updatedAt)
        ∧ (∀ b ∈ [cfRow].map (fun r => r.updatedAt), b ≤ a)
        ∧ (is_cache_stale 100 6 [cfRow] = true ↔ (100 : Int) - a > 6 * 3600))
    ∧ is_cache_stale 100 6 (cache_contests 100 [sampleContest] []) = false := by
  exact ⟨(is_cache_stale_spec 100 6 [] [] []).1 rfl,
         (is_cache_stale_spec 100 6 [cfRow] [] []).2.1 (by decide),
         (is_cache_stale_spec 100 6 [] [sampleContest] []).2.2 (by omega) (by decide)⟩

/-- C5 fails on the code for a record whose source duration is negative: the
record is not malformed (nothing raises), so it is processed, and its end
instant lies before its start instant. -/
theorem process_negative_duration_counterexample :
    ¬ (∀ p ∈ processContests (fun _ => 0) [negDurationRaw],
         p.startTime ≤ p.endTime) := by
  decide

/-- C5 amended: normalization never aborts a batch — a record that fails to
process is skipped and the rest of the batch is kept, so the output count is
at most the input count; and when every record of the batch carries a
non-negative source duration (a valid batch), every processed contest
satisfies end_time at or after start_time. -/
theorem processContests_spec (h : String → Int) (raw xs ys : List RawContest)
    (bad : RawContest) :
    (processContests h raw).length ≤ raw.length
    ∧ (processContest h bad = none →
        processContests h (xs ++ bad :: ys)
          = processContests h xs ++ processContests h ys)
    ∧ ((∀ c ∈ raw, 0 ≤ c.duration) →
        ∀ p ∈ processContests h raw, p.startTime ≤ p.endTime) := by
  refine ⟨List.length_filterMap_le _ _, ?_, ?_⟩
  · intro hbad
    simp [processContests, List.filterMap_append, List.filterMap_cons, hbad]
  · intro hdur p hp
    simp only [processContests, List.mem_filterMap] at hp
    obtain ⟨c, hc, hpc⟩ := hp
    have hd : 0 ≤ c.duration := hdur c hc
    rcases c with ⟨st, res, ev, d, u⟩
    have hd2 : 0 ≤ d := hd
    cases st <;> cases res <;> cases ev <;> simp [processContest] at hpc
    rw [← hpc]
    simpa using hd2

/-- Witness for C5: the batch good-then-broken drops exactly the broken
record and keeps the good one, and the processed good record has end at or
after start. -/
theorem processContests_spec_witness :
    processContests (fun _ => 0) ([goodRaw] ++ missingStartRaw :: [])
      = processContests (fun _ => 0) [goodRaw] ++ processContests (fun _ => 0) []
    ∧ (∀ p ∈ processContests (fun _ => 0) [goodRaw], p.startTime ≤ p.endTime) := by
  have hx := processContests_spec (fun _ => 0) [goodRaw] [goodRaw] [] missingStartRaw
  exact ⟨hx.2.1 rfl, hx.2.2 (by decide)⟩

/-- Rows surviving the LIMIT clause come from the unlimited result. -/
theorem mem_of_mem_applyLimit (limit : Option Nat) (rows : List CacheRow)
    (r : CacheRow) (hr : r ∈ applyLimit limit rows) : r ∈ rows := by
  cases limit with
  | none => exact hr
  | some n =>
    simp only [applyLimit] at hr
    by_cases hn : n = 0
    · rw [if_pos hn] at hr
      exact hr
    · rw [if_neg hn] at hr
      exact List.mem_of_mem_take hr

/-- The LIMIT clause preserves sortedness. -/
theorem sorted_applyLimit (limit : Option Nat) (rows : List CacheRow)
    (hs : List.Sorted rowLE rows) : List.Sorted rowLE (applyLimit limit rows) := by
  cases limit with
  | none => exact hs
  | some n =>
    simp only [applyLimit]
    by_cases hn : n = 0
    · rw [if_pos hn]
      exact hs
    · rw [if_neg hn]
      exact List.Pairwise.sublist (List.take_sublist n rows) hs

/-- C4 fails on the code for falsy filter values: querying a one-row store
with the empty-string platform filter and limit 0 returns the full row,
although the claim then requires every returned platform to equal the
display name of the empty key (itself empty) and at most 0 rows. -/
theorem get_cached_contests_falsy_counterexample :
    ¬ ((∀ r ∈ get_cached_contests [cfRow] (some "") (some 0) none none,
          r.platform = platformNameFromKey "")
       ∧ (get_cached_contests [cfRow] (some "") (some 0) none none).length ≤ 0) := by
  decide

/-- C4 amended: the query returns rows sorted by start_time ascending; a
given non-empty platform filter restricts every returned row to that
platform display name; a given nonzero limit caps the row count (the falsy
Python values, empty-string platform and zero limit, are treated as absent
filters); with no filters at all the result is a permutation of the store;
and the empty store yields the empty list rather than an error. -/
theorem get_cached_contests_spec (store : List CacheRow) (platform : Option String)
    (limit : Option Nat) (startDate endDate : Option Int) :
    List.Sorted rowLE (get_cached_contests store platform limit startDate endDate)
    ∧ (∀ p, platform = some p → p ≠ "" →
        ∀ r ∈ get_cached_contests store platform limit startDate endDate,
          r.platform = platformNameFromKey p)
    ∧ (∀ n, limit = some n → n ≠ 0 →
        (get_cached_contests store platform limit startDate endDate).length ≤ n)
    ∧ (platform = none → limit = none → startDate = none → endDate = none →
        List.Perm (get_cached_contests store platform limit startDate endDate) store)
    ∧ (store = [] → get_cached_contests store platform limit startDate endDate = []) := by
  refine ⟨?_, ?_, ?_, ?_, ?_⟩
  · exact sorted_applyLimit _ _ (List.sorted_insertionSort rowLE _)
  · intro p hp hpne r hr
    have hr2 := mem_of_mem_applyLimit _ _ _ hr
    have hr3 := (List.perm_insertionSort rowLE _).subset hr2
    rw [List.mem_filter] at hr3
    obtain ⟨_, hcond⟩ := hr3
    subst hp
    simp only [Bool.and_eq_true] at hcond
    have hpf := hcond.1.1
    simp only [platformFilter, if_neg hpne] at hpf
    exact of_decide_eq_true hpf
  · intro n hn hnne
    subst hn
    simp only [get_cached_contests, applyLimit, if_neg hnne]
    rw [List.length_take]
    exact min_le_left _ _
  · intro hp hl hsd hed
    subst hp
    subst hl
    subst hsd
    subst hed
    simp only [get_cached_contests, applyLimit]
    have hfil : (store.filter fun r =>
        platformFilter none r && startDateFilter none r && endDateFilter none r)
        = store := by
      simp [platformFilter, startDateFilter, endDateFilter]
    rw [hfil]
    exact List.perm_insertionSort rowLE store
  · intro h
    subst h
    cases limit with
    | none => rfl
    | some n =>
      by_cases hn : n = 0
      · simp [get_cached_contests, applyLimit, hn]
      · simp [get_cached_contests, applyLimit, hn]

/-- Witness for C4: on the singleton Codeforces store, a real platform
filter restricts the platform column, a limit of 5 bounds the count, the
unfiltered query is a permutation of the store, and the empty store yields
the empty list. -/
theorem get_cached_contests_spec_witness :
    (∀ r ∈ get_cached_contests [cfRow] (some "codeforces.com") (some 5) none none,
        r.platform = platformNameFromKey "codeforces.com")
    ∧ (get_cached_contests [cfRow] (some "codeforces.com") (some 5) none none).length ≤ 5
    ∧ List.Perm (get_cached_contests [cfRow] none none none none) [cfRow]
    ∧ get_cached_contests [] (some "codeforces.com") (some 5) none none = [] := by
  have hx := get_cached_contests_spec [cfRow] (some "codeforces.com") (some 5) none none
  have hy := get_cached_contests_spec [cfRow] none none none none
  have hz := get_cached_contests_spec [] (some "codeforces.com") (some 5) none none
  exact ⟨hx.2.1 _ rfl (by decide), hx.2.2.1 5 rfl (by decide),
         hy.2.2.2.1 rfl rfl rfl rfl, hz.2.2.2.2 rfl⟩

end SSTLounge
